import Mathlib

/-!
Verification of the i.MX27 PWM controller driver (drivers/pwm/pwm-imx27.c).

The development shallow-embeds the driver's logic in Lean:

* machine integers are `Nat` with an explicit `% 2 ^ 64` (resp. `% 2 ^ 32`)
  wherever the C code performs 64-bit (resp. 32-bit) unsigned arithmetic that
  can wrap (`unsigned long long` / `u64` multiplication, `u32` narrowing);
  `unsigned long` is modeled as 64 bits wide;
* memory-mapped register reads are modeled as explicit oracle parameters: one
  parameter per read site (successive reads of the same register inside a
  polling loop become a function from the poll index to the value read);
* register writes are collected in an ordered event list;
* `dev_warn` calls become warning flags / a warning list; `msleep` becomes a
  recorded sleep duration; `udelay`, which has no observable effect on
  registers or driver state, is not recorded;
* the fallible clock acquisition (`clk_bulk_prepare_enable`) is an oracle
  `Option Int` (`some e` = failure with negative errno `e`).
-/

namespace PwmImx27

/-- Semantics of the kernel macro `FIELD_GET(GENMASK(lo+width-1, lo), x)`:
extract the `width`-bit field that starts at bit `lo`, i.e.
`(x & GENMASK(lo+width-1, lo)) >> lo`. -/
def FIELD_GET (lo width x : Nat) : Nat := x / 2 ^ lo % 2 ^ width

/-- Semantics of the kernel macro `FIELD_PREP(GENMASK(lo+width-1, lo), v)`:
place a `width`-bit value at bit position `lo`, truncating it to the field,
i.e. `(v << lo) & GENMASK(lo+width-1, lo)`. -/
def FIELD_PREP (lo width v : Nat) : Nat := v % 2 ^ width * 2 ^ lo

def NSEC_PER_SEC : Nat := 1000000000

def NSEC_PER_MSEC : Nat := 1000000

/-- Kernel `DIV_ROUND_UP_ULL(a, b)`: ceiling division performed as
`(a + b - 1) / b` in 64-bit unsigned arithmetic (the addition may wrap). -/
def DIV_ROUND_UP_ULL (a b : Nat) : Nat := (a + b - 1) % 2 ^ 64 / b

/-! Register map and control/status register fields (header block of the
source file).  Single-bit fields are given by their value `BIT(n) = 2 ^ n`;
multi-bit fields are handled through `FIELD_GET`/`FIELD_PREP` with the bit
offset and width of the corresponding `GENMASK`. -/

inductive Reg
  | PWMCR   -- offset 0x00, control register
  | PWMSR   -- offset 0x04, status register
  | PWMSAR  -- offset 0x0C, sample register (FIFO backed)
  | PWMPR   -- offset 0x10, period register
  | PWMCNR  -- offset 0x14, counter register
  deriving DecidableEq, Repr

def MX3_PWMCR_STOPEN : Nat := 2 ^ 25

def MX3_PWMCR_DOZEN : Nat := 2 ^ 24

def MX3_PWMCR_WAITEN : Nat := 2 ^ 23

def MX3_PWMCR_DBGEN : Nat := 2 ^ 22

/-- MX3_PWMCR_FWM is GENMASK(27, 26): FIFO water mark. -/
def MX3_PWMCR_FWM_LO : Nat := 26

def MX3_PWMCR_BCTR : Nat := 2 ^ 21

def MX3_PWMCR_HCTR : Nat := 2 ^ 20

/-- MX3_PWMCR_POUTC is GENMASK(19, 18): polarity output control. -/
def MX3_PWMCR_POUTC_LO : Nat := 18

def MX3_PWMCR_POUTC_NORMAL : Nat := 0

def MX3_PWMCR_POUTC_INVERTED : Nat := 1

/-- MX3_PWMCR_CLKSRC is GENMASK(17, 16): clock source select. -/
def MX3_PWMCR_CLKSRC_LO : Nat := 16

def MX3_PWMCR_CLKSRC_IPG_HIGH : Nat := 2

/-- MX3_PWMCR_PRESCALER is GENMASK(15, 4): 12-bit prescaler field. -/
def MX3_PWMCR_PRESCALER_LO : Nat := 4

def MX3_PWMCR_SWR : Nat := 2 ^ 3

/-- MX3_PWMCR_REPEAT is GENMASK(2, 1). -/
def MX3_PWMCR_REPEAT_LO : Nat := 1

def MX3_PWMCR_EN : Nat := 1

/-- MX3_PWMSR_FIFOAV is GENMASK(2, 0): number of occupied FIFO slots. -/
def MX3_PWMSR_FIFOAV_LO : Nat := 0

def MX3_PWMSR_FIFOAV_4WORDS : Nat := 4

def MX3_PWMSR_FIFOAV_2WORDS : Nat := 2

def MX3_PWM_SWR_LOOP : Nat := 5

/-- PWMPR register value of 0xffff has the same effect as 0xfffe. -/
def MX3_PWMPR_MAX : Nat := 0xfffe

/-- `MX3_PWMCR_PRESCALER_SET(x) = FIELD_PREP(MX3_PWMCR_PRESCALER, (x) - 1)`. -/
def MX3_PWMCR_PRESCALER_SET (x : Nat) : Nat := FIELD_PREP MX3_PWMCR_PRESCALER_LO 12 (x - 1)

/-- `MX3_PWMCR_PRESCALER_GET(x) = FIELD_GET(MX3_PWMCR_PRESCALER, x) + 1`. -/
def MX3_PWMCR_PRESCALER_GET (x : Nat) : Nat := FIELD_GET MX3_PWMCR_PRESCALER_LO 12 x + 1

inductive Polarity
  | normal
  | inversed
  deriving DecidableEq, Repr

/-- The `struct pwm_state` fields the driver uses: requested (or previously
applied) period and duty cycle in nanoseconds, polarity and enable flag. -/
structure PwmState where
  period : Nat
  duty_cycle : Nat
  polarity : Polarity
  enabled : Bool
  deriving DecidableEq, Repr

/-- Driver-private state `struct pwm_imx27_chip` (the parts with functional
content): the cached duty-cycle value, kept because the hardware sample
register cannot be read while the PWM is disabled. -/
structure Chip where
  duty_cycle : Nat
  deriving DecidableEq, Repr

/-! ### Rate converter (pwm_imx27_apply, lines 212-233)

`c = clkrate * state->period` is a 64-bit multiplication and can wrap;
`do_div(c, NSEC_PER_SEC)` is truncating division. -/

/-- Lines 213-216 (and 221-223 for the duty cycle): nanoseconds to raw clock
cycles, `clkrate * ns / NSEC_PER_SEC` in wrapping 64-bit arithmetic. -/
def rawCycles (clkrate ns : Nat) : Nat := clkrate * ns % 2 ^ 64 / NSEC_PER_SEC

/-- Line 218: `prescale = period_cycles / 0x10000 + 1`. -/
def prescaleOf (clkrate period : Nat) : Nat := rawCycles clkrate period / 0x10000 + 1

/-- Line 220: `period_cycles /= prescale` (value before the fixed-offset
adjustment of lines 230-233). -/
def periodCyclesPre (clkrate period : Nat) : Nat :=
  rawCycles clkrate period / prescaleOf clkrate period

/-- Lines 221-224: `duty_cycles = clkrate * duty / NSEC_PER_SEC / prescale`. -/
def dutyCyclesOf (clkrate period duty : Nat) : Nat :=
  rawCycles clkrate duty / prescaleOf clkrate period

/-- Lines 230-233: the hardware realizes a period of `PWMPR + 2` cycles, so
subtract 2 if possible, else clamp to 0. -/
def periodCyclesOf (clkrate period : Nat) : Nat :=
  if periodCyclesPre clkrate period > 2 then periodCyclesPre clkrate period - 2 else 0

/-! ### Software reset (pwm_imx27_sw_reset, lines 160-176) -/

/-- The polling do-while loop of lines 168-172.  `crRead i` is the PWMCR value
returned by the i-th `readl`; `rem` is the number of further iterations the
`wait_count++ < MX3_PWM_SWR_LOOP` post-test still allows (initially
`MX3_PWM_SWR_LOOP`, since `wait_count` starts at 0 and is compared before the
increment).  Returns the last PWMCR value read and the number of reads (each
preceded by a `usleep_range(200, 1000)`). -/
def swResetPoll (crRead : Nat → Nat) : Nat → Nat → Nat × Nat
  | i, 0 => (crRead i, i + 1)
  | i, rem + 1 =>
    let cr := crRead i
    if cr &&& MX3_PWMCR_SWR ≠ 0 then swResetPoll crRead (i + 1) rem else (cr, i + 1)

structure SwResetOut where
  /-- value written to PWMCR by the `writel` of line 167, before polling -/
  writeVal : Nat
  /-- number of PWMCR polls (sleep + read) performed -/
  polls : Nat
  /-- whether the "software reset timeout" warning of line 175 fires -/
  timeoutWarn : Bool
  deriving DecidableEq, Repr

def pwm_imx27_sw_reset (crRead : Nat → Nat) : SwResetOut :=
  let p := swResetPoll crRead 0 MX3_PWM_SWR_LOOP
  { writeVal := MX3_PWMCR_SWR
    polls := p.2
    timeoutWarn := p.1 &&& MX3_PWMCR_SWR != 0 }

/-! ### FIFO slot wait (pwm_imx27_wait_fifo_slot, lines 178-198) -/

structure FifoWaitOut where
  /-- duration of the `msleep`, if one is performed -/
  sleep_ms : Option Nat
  /-- whether the "there is no free FIFO slot" warning of line 196 fires -/
  warn : Bool
  deriving DecidableEq, Repr

/-- `sr1` and `sr2` are the PWMSR values of the first read (line 187) and, if
the branch is taken, the second read (line 194); `prevPeriod` is
`pwm->state.period`, the currently applied period in nanoseconds.  The sleep
duration is assigned to an `unsigned int period_ms` (line 183/190), so the
u64 division result is narrowed to 32 bits. -/
def pwm_imx27_wait_fifo_slot (sr1 sr2 prevPeriod : Nat) : FifoWaitOut :=
  let fifoav := FIELD_GET MX3_PWMSR_FIFOAV_LO 3 sr1
  if fifoav = MX3_PWMSR_FIFOAV_4WORDS then
    let period_ms := DIV_ROUND_UP_ULL prevPeriod NSEC_PER_MSEC % 2 ^ 32
    { sleep_ms := some period_ms
      warn := fifoav == FIELD_GET MX3_PWMSR_FIFOAV_LO 3 sr2 }
  else { sleep_ms := none, warn := false }

/-! ### ERR051198 erratum workaround (pwm_imx27_apply, lines 249-254, 315-339) -/

/-- Lines 249-254: reconstruct the currently programmed output period in
microseconds from the PWMPR and PWMCR readback, rounding up twice. -/
def currentPeriodUs (clkrate prVal crVal : Nat) : Nat :=
  let val := if prVal ≥ MX3_PWMPR_MAX then MX3_PWMPR_MAX else prVal
  let tmp := NSEC_PER_SEC * (val + 2) * MX3_PWMCR_PRESCALER_GET crVal % 2 ^ 64
  let tmp := DIV_ROUND_UP_ULL tmp clkrate
  DIV_ROUND_UP_ULL tmp 1000

/-- Lines 315-316: the 1.5us IO-write safety margin converted to counter
cycles, `c = clkrate * 1500 / NSEC_PER_SEC` in wrapping 64-bit arithmetic. -/
def errataMarginCycles (clkrate : Nat) : Nat := clkrate * 1500 % 2 ^ 64 / NSEC_PER_SEC

/-- Lines 321-337: the values written to PWMSAR ahead of the new duty value,
in order.  `cachedDuty` is `imx->duty_cycle`; `cr` is the PWMCR value read at
line 251; `fifoav` is `FIELD_GET(MX3_PWMSR_FIFOAV, ...)` of the PWMSR read at
line 319; `cnr` is the PWMCNR value read at line 328; `c` is the safety margin
in cycles.  The `udelay(3 * period_us)` of the first branch only burns time
and is not recorded. -/
def erratumGuardWrites (cachedDuty dutyCycles periodCycles period_us c fifoav cnr cr : Nat) :
    List Nat :=
  if dutyCycles < cachedDuty ∧ cr &&& MX3_PWMCR_EN ≠ 0 then
    if period_us < 2 then [cachedDuty, cachedDuty]
    else if fifoav < MX3_PWMSR_FIFOAV_2WORDS then
      if (cnr + c ≥ dutyCycles ∧ cnr < cachedDuty) ∨ cnr + c ≥ periodCycles then [cachedDuty]
      else []
    else []
  else []

/-- Lines 349-359: the control word committed by the final `writel` of apply. -/
def mkPWMCR (prescale : Nat) (pol : Polarity) (en : Bool) : Nat :=
  let cr := MX3_PWMCR_PRESCALER_SET prescale |||
      MX3_PWMCR_STOPEN ||| MX3_PWMCR_DOZEN ||| MX3_PWMCR_WAITEN |||
      FIELD_PREP MX3_PWMCR_CLKSRC_LO 2 MX3_PWMCR_CLKSRC_IPG_HIGH ||| MX3_PWMCR_DBGEN
  let cr := if pol = Polarity.inversed then
      cr ||| FIELD_PREP MX3_PWMCR_POUTC_LO 2 MX3_PWMCR_POUTC_INVERTED
    else cr
  if en then cr ||| MX3_PWMCR_EN else cr

/-! ### pwm_imx27_apply (lines 200-367) -/

/-- One oracle field per hardware read site of apply (and of the helpers it
calls); distinct reads of the same register are distinct fields so the model
does not force the status registers to be stable across reads. -/
structure Oracle where
  /-- clk_get_rate of the "per" clock (line 212) -/
  clkrate : Nat
  /-- clk_bulk_prepare_enable outcome (line 242): some e = failure, errno e -/
  clkErr : Option Int
  /-- PWMSR, first read in wait_fifo_slot (line 187) -/
  fifo_sr1 : Nat
  /-- PWMSR, second read in wait_fifo_slot (line 194) -/
  fifo_sr2 : Nat
  /-- successive PWMCR values read while polling in sw_reset (line 170) -/
  resetCr : Nat → Nat
  /-- PWMPR read (line 249) -/
  pr : Nat
  /-- PWMCR read (line 251) -/
  cr : Nat
  /-- PWMSR read (line 319) -/
  sr : Nat
  /-- PWMCNR read (line 328) -/
  cnr : Nat

inductive Warn
  | resetTimeout
  | noFreeFifoSlot
  deriving DecidableEq, Repr

structure ApplyOut where
  /-- some e : early error return with code e; none : the function returns 0 -/
  ret : Option Int
  /-- ordered register write trace -/
  writes : List (Reg × Nat)
  /-- driver-private state after the call -/
  chip : Chip
  warns : List Warn
  /-- msleep performed by wait_fifo_slot, if any -/
  sleep_ms : Option Nat
  deriving Repr

/-- Lines 249-361 (the part common to both branches of lines 239-247): erratum
guard decision, the PWMSAR/PWMPR/PWMCR writes and the duty-cycle cache
update of line 347.  `writes0`/`warns0`/`sleep0` carry what the branch taken
at lines 239-247 already did. -/
def applyCommit (imx : Chip) (o : Oracle) (requested : PwmState)
    (prescale duty_cycles period_cycles : Nat)
    (writes0 : List (Reg × Nat)) (warns0 : List Warn) (sleep0 : Option Nat) : ApplyOut :=
  let period_us := currentPeriodUs o.clkrate o.pr o.cr
  let c := errataMarginCycles o.clkrate
  let fifoav := FIELD_GET MX3_PWMSR_FIFOAV_LO 3 o.sr
  let guards := erratumGuardWrites imx.duty_cycle duty_cycles period_cycles period_us c
    fifoav o.cnr o.cr
  { ret := none
    writes := writes0 ++ guards.map (fun v => (Reg.PWMSAR, v)) ++
      [(Reg.PWMSAR, duty_cycles), (Reg.PWMPR, period_cycles),
       (Reg.PWMCR, mkPWMCR prescale requested.polarity requested.enabled)]
    chip := { duty_cycle := duty_cycles }
    warns := warns0
    sleep_ms := sleep0 }

/-- pwm_imx27_apply.  `prev` is `pwm->state` (the currently applied state);
`requested` is `*state` (the state to apply).  The final
clk_bulk_disable_unprepare of lines 363-364 releases a refcount and leaves
registers and driver state untouched, so it is not modeled. -/
def pwm_imx27_apply (imx : Chip) (o : Oracle) (prev requested : PwmState) : ApplyOut :=
  let prescale := prescaleOf o.clkrate requested.period
  let duty_cycles := dutyCyclesOf o.clkrate requested.period requested.duty_cycle
  let period_cycles := periodCyclesOf o.clkrate requested.period
  if prev.enabled then
    let fifo := pwm_imx27_wait_fifo_slot o.fifo_sr1 o.fifo_sr2 prev.period
    applyCommit imx o requested prescale duty_cycles period_cycles []
      (if fifo.warn then [Warn.noFreeFifoSlot] else []) fifo.sleep_ms
  else
    match o.clkErr with
    | some e => { ret := some e, writes := [], chip := imx, warns := [], sleep_ms := none }
    | none =>
      let rst := pwm_imx27_sw_reset o.resetCr
      applyCommit imx o requested prescale duty_cycles period_cycles
        [(Reg.PWMCR, rst.writeVal)]
        (if rst.timeoutWarn then [Warn.resetTimeout] else []) none

/-! ### pwm_imx27_get_state (lines 104-158) -/

structure GsOracle where
  /-- clk_bulk_prepare_enable outcome (line 112) -/
  clkErr : Option Int
  /-- clk_get_rate of the "per" clock (line 135); stored into a u32 -/
  clkrate : Nat
  /-- PWMCR read (line 116) -/
  cr : Nat
  /-- PWMPR read (line 136) -/
  pr : Nat
  /-- PWMSAR read (line 148), performed only if the PWM is enabled -/
  sar : Nat

structure ReadState where
  enabled : Bool
  /-- none models the default switch case of line 130: output disconnected,
  `state->polarity` is left at its prior value and a warning is printed -/
  polarity : Option Polarity
  polarityWarn : Bool
  period : Nat
  duty_cycle : Nat
  deriving DecidableEq, Repr

/-- Counter cycles to nanoseconds, rounding up: lines 140-141 (with
`cycles = period + 2`) and lines 152-153 (with `cycles = val`).  The
multiplication is u64 and may wrap; `pwm_clk` is a u32. -/
def readbackNs (pwm_clk prescaler cycles : Nat) : Nat :=
  DIV_ROUND_UP_ULL (NSEC_PER_SEC * cycles * prescaler % 2 ^ 64) pwm_clk

def pwm_imx27_get_state (imx : Chip) (o : GsOracle) : Except Int ReadState :=
  match o.clkErr with
  | some e => .error e
  | none =>
    let val := o.cr
    let enabled := val &&& MX3_PWMCR_EN != 0
    let poutc := FIELD_GET MX3_PWMCR_POUTC_LO 2 val
    let polarity := if poutc = MX3_PWMCR_POUTC_NORMAL then some Polarity.normal
      else if poutc = MX3_PWMCR_POUTC_INVERTED then some Polarity.inversed
      else none
    let prescaler := MX3_PWMCR_PRESCALER_GET val
    let pwm_clk := o.clkrate % 2 ^ 32
    let period := if o.pr ≥ MX3_PWMPR_MAX then MX3_PWMPR_MAX else o.pr
    let statePeriod := readbackNs pwm_clk prescaler (period + 2)
    let v := if enabled then o.sar else imx.duty_cycle
    let stateDuty := readbackNs pwm_clk prescaler v
    .ok { enabled := enabled
          polarity := polarity
          polarityWarn := polarity.isNone
          period := statePeriod
          duty_cycle := stateDuty }

theorem prescaleOf_pos (clkrate period : Nat) : 1 ≤ prescaleOf clkrate period :=
  Nat.le_add_left 1 _

/-- The prescaler choice makes the post-prescale period fit 16 bits, for every
raw cycle count. -/
theorem periodCyclesPre_lt (clkrate period : Nat) : periodCyclesPre clkrate period < 65536 := by
  unfold periodCyclesPre prescaleOf
  set r := rawCycles clkrate period with hr
  have h := Nat.div_add_mod r 0x10000
  have h2 : r % 0x10000 < 0x10000 := Nat.mod_lt _ (by norm_num)
  rw [Nat.div_lt_iff_lt_mul (Nat.succ_pos _)]
  omega

theorem dutyCyclesOf_le (clkrate period duty : Nat) (hle : duty ≤ period)
    (hov : clkrate * period < 2 ^ 64) :
    dutyCyclesOf clkrate period duty ≤ periodCyclesPre clkrate period := by
  unfold dutyCyclesOf periodCyclesPre
  apply Nat.div_le_div_right
  unfold rawCycles
  apply Nat.div_le_div_right
  have h1 : clkrate * duty ≤ clkrate * period := Nat.mul_le_mul_left _ hle
  rw [Nat.mod_eq_of_lt (Nat.lt_of_le_of_lt h1 hov), Nat.mod_eq_of_lt hov]
  exact h1

/-! ## Bit-level normal form of the committed control word -/

theorem two_mul_lor_one (H : Nat) : 2 * H ||| 1 = 2 * H + 1 := by
  have h := Nat.mul_add_lt_is_or (show (1 : Nat) < 2 ^ 1 by norm_num) H
  norm_num at h
  exact h.symm

theorem mkPWMCR_base (p : Nat) :
    MX3_PWMCR_PRESCALER_SET p ||| MX3_PWMCR_STOPEN ||| MX3_PWMCR_DOZEN ||| MX3_PWMCR_WAITEN |||
      FIELD_PREP MX3_PWMCR_CLKSRC_LO 2 MX3_PWMCR_CLKSRC_IPG_HIGH ||| MX3_PWMCR_DBGEN =
      63045632 + (p - 1) % 4096 * 16 := by
  have h1 : (p - 1) % 4096 < 4096 := Nat.mod_lt _ (by norm_num)
  have hA : (p - 1) % 4096 * 16 < 2 ^ 17 := by omega
  unfold MX3_PWMCR_PRESCALER_SET FIELD_PREP MX3_PWMCR_PRESCALER_LO MX3_PWMCR_STOPEN
    MX3_PWMCR_DOZEN MX3_PWMCR_WAITEN MX3_PWMCR_CLKSRC_LO MX3_PWMCR_CLKSRC_IPG_HIGH
    MX3_PWMCR_DBGEN
  norm_num
  simp only [Nat.lor_assoc]
  rw [show (33554432 ||| (16777216 ||| (8388608 ||| (131072 ||| (4194304 : Nat))))) = 63045632
    from by decide]
  rw [Nat.lor_comm]
  rw [show (63045632 : Nat) = 2 ^ 17 * 481 from by norm_num]
  rw [← Nat.mul_add_lt_is_or hA 481]

theorem poutc_lor (A : Nat) (hA : A < 2 ^ 16) :
    (63045632 + A) ||| 262144 = 63045632 + A + 262144 := by
  have hlow : 2 ^ 17 + A < 2 ^ 18 := by omega
  have hlow2 : 2 ^ 18 * 1 + (2 ^ 17 + A) < 2 ^ 19 := by omega
  calc (63045632 + A) ||| 262144
      = (2 ^ 18 * 240 + (2 ^ 17 + A)) ||| 262144 := by ring_nf
    _ = (2 ^ 18 * 240 ||| (2 ^ 17 + A)) ||| 262144 := by rw [Nat.mul_add_lt_is_or hlow 240]
    _ = 2 ^ 18 * 240 ||| ((2 ^ 17 + A) ||| 262144) := Nat.lor_assoc _ _ _
    _ = 2 ^ 18 * 240 ||| (262144 ||| (2 ^ 17 + A)) := by rw [Nat.lor_comm (2 ^ 17 + A)]
    _ = 2 ^ 18 * 240 ||| (2 ^ 18 * 1 ||| (2 ^ 17 + A)) := by norm_num
    _ = 2 ^ 18 * 240 ||| (2 ^ 18 * 1 + (2 ^ 17 + A)) := by rw [← Nat.mul_add_lt_is_or hlow 1]
    _ = 2 ^ 19 * 120 ||| (2 ^ 18 * 1 + (2 ^ 17 + A)) := by norm_num
    _ = 2 ^ 19 * 120 + (2 ^ 18 * 1 + (2 ^ 17 + A)) := by rw [← Nat.mul_add_lt_is_or hlow2 120]
    _ = 63045632 + A + 262144 := by ring

theorem mkPWMCR_eq (p : Nat) (pol : Polarity) (en : Bool) :
    mkPWMCR p pol en = 63045632 + (p - 1) % 4096 * 16 +
      (if pol = Polarity.inversed then 262144 else 0) + (if en then 1 else 0) := by
  have h1 : (p - 1) % 4096 < 4096 := Nat.mod_lt _ (by norm_num)
  have hA : (p - 1) % 4096 * 16 < 2 ^ 16 := by omega
  have hP : FIELD_PREP MX3_PWMCR_POUTC_LO 2 MX3_PWMCR_POUTC_INVERTED = 262144 := by
    norm_num [FIELD_PREP, MX3_PWMCR_POUTC_LO, MX3_PWMCR_POUTC_INVERTED]
  cases pol <;> cases en <;>
    simp only [mkPWMCR, MX3_PWMCR_EN, hP, reduceCtorEq, ite_true, ite_false, reduceIte] <;>
    rw [mkPWMCR_base p]
  case normal.false => omega
  case normal.true =>
    rw [show 63045632 + (p - 1) % 4096 * 16 = 2 * (31522816 + (p - 1) % 4096 * 8) from by ring,
      two_mul_lor_one]
  case inversed.false => rw [poutc_lor _ hA]
  case inversed.true =>
    rw [poutc_lor _ hA,
      show 63045632 + (p - 1) % 4096 * 16 + 262144 = 2 * (31653888 + (p - 1) % 4096 * 8)
        from by ring,
      two_mul_lor_one]

/-! ## Behaviour of the reset polling loop -/

theorem swResetPoll_polls_le (crRead : Nat → Nat) (rem : Nat) :
    ∀ i, (swResetPoll crRead i rem).2 ≤ i + rem + 1 := by
  induction rem with
  | zero => intro i; simp [swResetPoll]
  | succ n ih =>
    intro i
    simp only [swResetPoll]
    split
    · have := ih (i + 1); omega
    · simp

/-- When the reset bit never reads back as clear, the loop runs to exhaustion:
it performs exactly `rem + 1` reads and ends on the last value read. -/
theorem swResetPoll_stuck (crRead : Nat → Nat) (h : ∀ j, crRead j &&& MX3_PWMCR_SWR ≠ 0)
    (rem : Nat) : ∀ i, swResetPoll crRead i rem = (crRead (i + rem), i + rem + 1) := by
  induction rem with
  | zero => intro i; simp [swResetPoll]
  | succ n ih =>
    intro i
    simp only [swResetPoll]
    rw [if_pos (h i), ih (i + 1)]
    have he : i + 1 + n = i + (n + 1) := by omega
    rw [he]

/-! ## Claim theorems -/

/-- C2, counterexamples to the claim as stated.  First input: at a 1 GHz clock
with period = duty = 100 ns (so `duty_ns <= period_ns` holds) the converter
yields `duty_cycles = 100` but `period_cycles = 98`, because the final
subtract-2 step applies to the period only; the claimed
`duty_cycles <= period_cycles` is false.  Second input: at clock 2^30 Hz with
period = 2^34 ns and duty = 2^34 - 1 ns the 64-bit multiplication
`clkrate * state->period` wraps to 0 while the duty product does not, giving
`period_cycles = 0` but `duty_cycles = 18446744072`, so without a no-overflow
hypothesis not even `duty_cycles <= period_cycles + 2` survives. -/
theorem claim_C2_cex :
    (100 ≤ 100 ∧ ¬ dutyCyclesOf 1000000000 100 100 ≤ periodCyclesOf 1000000000 100) ∧
    (17179869183 ≤ 17179869184 ∧
      ¬ dutyCyclesOf 1073741824 17179869184 17179869183 ≤
        periodCyclesOf 1073741824 17179869184 + 2) := by
  decide

/-- C2 (amended): for every input with `duty_ns <= period_ns` and no 64-bit
overflow of `clock_hz * period_ns`, the conversion yields a prescaler of at
least 1 and a post-prescale period that fits the 16-bit counter register (the
16-bit fit and the prescaler bound need no hypothesis at all), and the duty
cycle count can exceed the converter's final period value only by the fixed
2-cycle hardware offset: `duty_cycles <= period_cycles + 2`.  (Without the
overflow hypothesis even this fails, since `clkrate * state->period` wraps at
2^64 while the duty product may not.) -/
theorem claim_C2 (clkrate period duty : Nat) (hle : duty ≤ period)
    (hov : clkrate * period < 2 ^ 64) :
    1 ≤ prescaleOf clkrate period ∧
    periodCyclesPre clkrate period < 65536 ∧
    dutyCyclesOf clkrate period duty ≤ periodCyclesOf clkrate period + 2 := by
  refine ⟨prescaleOf_pos _ _, periodCyclesPre_lt _ _, ?_⟩
  have h := dutyCyclesOf_le clkrate period duty hle hov
  unfold periodCyclesOf
  split <;> omega

theorem claim_C2_witness :
    1 ≤ prescaleOf 1000000000 100 ∧
    periodCyclesPre 1000000000 100 < 65536 ∧
    dutyCyclesOf 1000000000 100 50 ≤ periodCyclesOf 1000000000 100 + 2 :=
  claim_C2 1000000000 100 50 (by norm_num) (by norm_num)

/-- C4, counterexample: with the reset bit stuck high on every readback, the
polling loop performs 6 reads (one initial poll plus `MX3_PWM_SWR_LOOP = 5`
retries allowed by the post-incremented comparison), not at most 5 as
claimed. -/
theorem claim_C4_cex :
    (pwm_imx27_sw_reset fun _ => MX3_PWMCR_SWR).polls = 6 ∧
    ¬ (pwm_imx27_sw_reset fun _ => MX3_PWMCR_SWR).polls ≤ MX3_PWM_SWR_LOOP := by
  decide

/-- C4 (amended): the software-reset sequencer always terminates after at most
6 polls (one initial poll plus `MX3_PWM_SWR_LOOP = 5` retries), each preceded
by a 200-1000 microsecond sleep; if the reset bit never self-clears it stops
after exactly 6 polls with the timeout warning set; the timeout is non-fatal:
apply proceeds and still returns success whenever the clock was acquired. -/
theorem claim_C4 :
    (∀ crRead, (pwm_imx27_sw_reset crRead).polls ≤ 6) ∧
    (∀ crRead, (∀ j, crRead j &&& MX3_PWMCR_SWR ≠ 0) →
      (pwm_imx27_sw_reset crRead).polls = 6 ∧
      (pwm_imx27_sw_reset crRead).timeoutWarn = true) ∧
    (∀ (imx : Chip) (o : Oracle) (prev requested : PwmState),
      prev.enabled = false → o.clkErr = none →
      (pwm_imx27_apply imx o prev requested).ret = none) := by
  refine ⟨?_, ?_, ?_⟩
  · intro crRead
    have h := swResetPoll_polls_le crRead MX3_PWM_SWR_LOOP 0
    simpa [pwm_imx27_sw_reset, MX3_PWM_SWR_LOOP] using h
  · intro crRead h
    have hs := swResetPoll_stuck crRead h MX3_PWM_SWR_LOOP 0
    norm_num [MX3_PWM_SWR_LOOP] at hs
    refine ⟨?_, ?_⟩
    · simp [pwm_imx27_sw_reset, MX3_PWM_SWR_LOOP, hs]
    · simp [pwm_imx27_sw_reset, MX3_PWM_SWR_LOOP, hs]
      simpa [MX3_PWMCR_SWR] using h 5
  · intro imx o prev req hp hclk
    simp [pwm_imx27_apply, hp, hclk, applyCommit]

theorem claim_C4_witness :
    (pwm_imx27_sw_reset fun _ => MX3_PWMCR_SWR).polls ≤ 6 ∧
    ((pwm_imx27_sw_reset fun _ => MX3_PWMCR_SWR).polls = 6 ∧
      (pwm_imx27_sw_reset fun _ => MX3_PWMCR_SWR).timeoutWarn = true) ∧
    (pwm_imx27_apply ⟨0⟩
      { clkrate := 66000000, clkErr := none, fifo_sr1 := 0, fifo_sr2 := 0,
        resetCr := fun _ => MX3_PWMCR_SWR, pr := 0, cr := 0, sr := 0, cnr := 0 }
      ⟨20000, 10000, Polarity.normal, false⟩
      ⟨20000, 10000, Polarity.normal, true⟩).ret = none :=
  ⟨claim_C4.1 _, claim_C4.2.1 _ (fun _ => by decide), claim_C4.2.2 _ _ _ _ rfl rfl⟩

/-- C6 (confirmed): if clock acquisition fails while the PWM was disabled,
apply returns exactly the clock error, performs no register write at all, and
leaves the cached duty value unchanged. -/
theorem claim_C6 : ∀ (imx : Chip) (o : Oracle) (prev requested : PwmState) (e : Int),
    prev.enabled = false → o.clkErr = some e →
    (pwm_imx27_apply imx o prev requested).ret = some e ∧
    (pwm_imx27_apply imx o prev requested).writes = [] ∧
    (pwm_imx27_apply imx o prev requested).chip = imx := by
  intro imx o prev req e hp hclk
  simp [pwm_imx27_apply, hp, hclk]

theorem claim_C6_witness :
    (pwm_imx27_apply ⟨42⟩
      { clkrate := 66000000, clkErr := some (-5), fifo_sr1 := 0, fifo_sr2 := 0,
        resetCr := fun _ => 0, pr := 0, cr := 0, sr := 0, cnr := 0 }
      ⟨20000, 10000, Polarity.normal, false⟩
      ⟨20000, 10000, Polarity.normal, true⟩).ret = some (-5) ∧
    (pwm_imx27_apply ⟨42⟩
      { clkrate := 66000000, clkErr := some (-5), fifo_sr1 := 0, fifo_sr2 := 0,
        resetCr := fun _ => 0, pr := 0, cr := 0, sr := 0, cnr := 0 }
      ⟨20000, 10000, Polarity.normal, false⟩
      ⟨20000, 10000, Polarity.normal, true⟩).writes = [] ∧
    (pwm_imx27_apply ⟨42⟩
      { clkrate := 66000000, clkErr := some (-5), fifo_sr1 := 0, fifo_sr2 := 0,
        resetCr := fun _ => 0, pr := 0, cr := 0, sr := 0, cnr := 0 }
      ⟨20000, 10000, Polarity.normal, false⟩
      ⟨20000, 10000, Polarity.normal, true⟩).chip = ⟨42⟩ :=
  claim_C6 _ _ _ _ (-5) rfl rfl

/-- C8 (confirmed): the software-reset sequence writes the whole control
register with only the reset bit set (`MX3_PWMCR_SWR`), independently of the
previous register contents; every other control field of the written word
(enable, polarity output control, clock source, prescaler, FIFO water mark,
repeat, stop/doze/wait/debug enables, the two capture control bits) is 0. -/
theorem claim_C8 : ∀ crRead : Nat → Nat,
    (pwm_imx27_sw_reset crRead).writeVal = MX3_PWMCR_SWR ∧
    MX3_PWMCR_SWR &&& MX3_PWMCR_SWR = MX3_PWMCR_SWR ∧
    MX3_PWMCR_SWR &&& MX3_PWMCR_EN = 0 ∧
    FIELD_GET MX3_PWMCR_POUTC_LO 2 MX3_PWMCR_SWR = 0 ∧
    FIELD_GET MX3_PWMCR_CLKSRC_LO 2 MX3_PWMCR_SWR = 0 ∧
    FIELD_GET MX3_PWMCR_PRESCALER_LO 12 MX3_PWMCR_SWR = 0 ∧
    FIELD_GET MX3_PWMCR_FWM_LO 2 MX3_PWMCR_SWR = 0 ∧
    FIELD_GET MX3_PWMCR_REPEAT_LO 2 MX3_PWMCR_SWR = 0 ∧
    MX3_PWMCR_SWR &&& MX3_PWMCR_STOPEN = 0 ∧
    MX3_PWMCR_SWR &&& MX3_PWMCR_DOZEN = 0 ∧
    MX3_PWMCR_SWR &&& MX3_PWMCR_WAITEN = 0 ∧
    MX3_PWMCR_SWR &&& MX3_PWMCR_DBGEN = 0 ∧
    MX3_PWMCR_SWR &&& MX3_PWMCR_BCTR = 0 ∧
    MX3_PWMCR_SWR &&& MX3_PWMCR_HCTR = 0 :=
  fun _ => ⟨rfl, by decide⟩

/-- C10 (confirmed): when the PWM is already enabled, apply takes the
wait-for-FIFO-slot branch, never attempts clock acquisition (its result is
independent of the clock-enable oracle) and has no failure path: it always
returns success. -/
theorem claim_C10 : ∀ (imx : Chip) (o : Oracle) (prev requested : PwmState),
    prev.enabled = true →
    (pwm_imx27_apply imx o prev requested).ret = none ∧
    (∀ e, pwm_imx27_apply imx { o with clkErr := e } prev requested =
      pwm_imx27_apply imx o prev requested) := by
  intro imx o prev req hp
  refine ⟨?_, ?_⟩
  · simp [pwm_imx27_apply, hp, applyCommit]
  · intro e
    simp [pwm_imx27_apply, hp, applyCommit]

theorem claim_C10_witness :
    (pwm_imx27_apply ⟨500⟩
      { clkrate := 66000000, clkErr := some (-5), fifo_sr1 := 4, fifo_sr2 := 4,
        resetCr := fun _ => 0, pr := 0, cr := 1, sr := 0, cnr := 0 }
      ⟨20000, 10000, Polarity.normal, true⟩
      ⟨20000, 10000, Polarity.normal, true⟩).ret = none :=
  (claim_C10 _ _ _ _ rfl).1

/-! ## Write-trace structure of applyCommit -/

theorem applyCommit_writes_getLast (imx : Chip) (o : Oracle) (requested : PwmState)
    (prescale dc pc : Nat) (w0 : List (Reg × Nat)) (warns0 : List Warn) (sleep0 : Option Nat) :
    (applyCommit imx o requested prescale dc pc w0 warns0 sleep0).writes.getLast? =
      some (Reg.PWMCR, mkPWMCR prescale requested.polarity requested.enabled) := by
  simp [applyCommit, List.getLast?_append]

/-- C1 (confirmed): the erratum guard pre-writes happen only when the
controller is enabled (EN set in the control word read back at line 251) and
the new duty-cycle count is strictly below the cached one; whenever the new
value is greater than or equal to the cached one, no guard write occurs; and
in the concrete spec scenario (66 MHz clock, enabled, cached duty = 1000
cycles, current and requested period = 5000 cycles so PWMPR reads 4998,
requested duty = 200 cycles, FIFO empty, live counter = 150, safety margin =
99 cycles) the old cached value is written to the sample register immediately
before the new one. -/
theorem claim_C1 :
    (∀ cachedDuty dutyCycles periodCycles period_us c fifoav cnr cr,
      erratumGuardWrites cachedDuty dutyCycles periodCycles period_us c fifoav cnr cr ≠ [] →
      dutyCycles < cachedDuty ∧ cr &&& MX3_PWMCR_EN ≠ 0) ∧
    (∀ cachedDuty dutyCycles periodCycles period_us c fifoav cnr cr,
      cachedDuty ≤ dutyCycles →
      erratumGuardWrites cachedDuty dutyCycles periodCycles period_us c fifoav cnr cr = []) ∧
    (pwm_imx27_apply ⟨1000⟩
      { clkrate := 66000000, clkErr := none, fifo_sr1 := 0, fifo_sr2 := 0,
        resetCr := fun _ => 0, pr := 4998, cr := 1, sr := 0, cnr := 150 }
      ⟨75758, 45454, Polarity.normal, true⟩
      ⟨75758, 3031, Polarity.normal, true⟩).writes =
      [(Reg.PWMSAR, 1000), (Reg.PWMSAR, 200), (Reg.PWMPR, 4998), (Reg.PWMCR, 63045633)] := by
  refine ⟨?_, ?_, by decide⟩
  · intro cachedDuty dutyCycles periodCycles period_us c fifoav cnr cr h
    unfold erratumGuardWrites at h
    split at h
    · assumption
    · simp at h
  · intro cachedDuty dutyCycles periodCycles period_us c fifoav cnr cr h
    have hn : ¬(dutyCycles < cachedDuty ∧ cr &&& MX3_PWMCR_EN ≠ 0) := by
      rintro ⟨h1, -⟩; omega
    simp [erratumGuardWrites, hn]

theorem claim_C1_witness :
    (200 < 1000 ∧ (1 : Nat) &&& MX3_PWMCR_EN ≠ 0) ∧
    erratumGuardWrites 1000 1500 4998 76 99 0 150 1 = [] :=
  ⟨claim_C1.1 1000 200 4998 76 99 0 150 1 (by decide),
   claim_C1.2.1 1000 1500 4998 76 99 0 150 1 (by decide)⟩

/-- C9 (confirmed): the control word committed by every successful apply has
the stop, doze, wait and debug enable bits set and the clock source fixed to
the high-frequency source, independently of the requested configuration; the
FIFO water mark, both capture control bits, the software reset bit and the
repeat field of the written word are always 0; and the whole word is the
normal form `63045632 + prescaler_field * 16 + poutc + en`, so only the
prescaler, polarity and enable fields depend on the input.  The final write
of every successful apply is exactly this word. -/
theorem claim_C9 :
    (∀ (p : Nat) (pol : Polarity) (en : Bool),
      mkPWMCR p pol en = 63045632 + (p - 1) % 4096 * 16 +
        (if pol = Polarity.inversed then 262144 else 0) + (if en then 1 else 0) ∧
      Nat.testBit (mkPWMCR p pol en) 25 = true ∧
      Nat.testBit (mkPWMCR p pol en) 24 = true ∧
      Nat.testBit (mkPWMCR p pol en) 23 = true ∧
      Nat.testBit (mkPWMCR p pol en) 22 = true ∧
      FIELD_GET MX3_PWMCR_CLKSRC_LO 2 (mkPWMCR p pol en) = MX3_PWMCR_CLKSRC_IPG_HIGH ∧
      FIELD_GET MX3_PWMCR_FWM_LO 2 (mkPWMCR p pol en) = 0 ∧
      Nat.testBit (mkPWMCR p pol en) 21 = false ∧
      Nat.testBit (mkPWMCR p pol en) 20 = false ∧
      Nat.testBit (mkPWMCR p pol en) 3 = false ∧
      FIELD_GET MX3_PWMCR_REPEAT_LO 2 (mkPWMCR p pol en) = 0 ∧
      FIELD_GET MX3_PWMCR_PRESCALER_LO 12 (mkPWMCR p pol en) = (p - 1) % 4096 ∧
      FIELD_GET MX3_PWMCR_POUTC_LO 2 (mkPWMCR p pol en) =
        (if pol = Polarity.inversed then MX3_PWMCR_POUTC_INVERTED
          else MX3_PWMCR_POUTC_NORMAL) ∧
      mkPWMCR p pol en &&& MX3_PWMCR_EN = (if en then 1 else 0)) ∧
    (∀ (imx : Chip) (o : Oracle) (prev requested : PwmState),
      (pwm_imx27_apply imx o prev requested).ret = none →
      (pwm_imx27_apply imx o prev requested).writes.getLast? =
        some (Reg.PWMCR,
          mkPWMCR (prescaleOf o.clkrate requested.period) requested.polarity
            requested.enabled)) := by
  refine ⟨?_, ?_⟩
  · intro p pol en
    have h1 : (p - 1) % 4096 < 4096 := Nat.mod_lt _ (by norm_num)
    have hnf := mkPWMCR_eq p pol en
    cases pol <;> cases en <;>
      simp only [reduceCtorEq, reduceIte, ite_true, ite_false, if_true, if_false] at hnf ⊢ <;>
      rw [hnf] <;>
      simp only [Nat.testBit_to_div_mod, FIELD_GET, MX3_PWMCR_CLKSRC_LO,
        MX3_PWMCR_CLKSRC_IPG_HIGH, MX3_PWMCR_FWM_LO, MX3_PWMCR_REPEAT_LO,
        MX3_PWMCR_PRESCALER_LO, MX3_PWMCR_POUTC_LO, MX3_PWMCR_POUTC_INVERTED,
        MX3_PWMCR_POUTC_NORMAL, MX3_PWMCR_EN, Nat.and_one_is_mod, decide_eq_true_eq,
        decide_eq_false_iff_not] <;>
      norm_num <;>
      omega
  · intro imx o prev req hret
    cases hp : prev.enabled with
    | true =>
      simp only [pwm_imx27_apply, hp, ite_true, reduceIte]
      exact applyCommit_writes_getLast _ _ _ _ _ _ _ _ _
    | false =>
      cases hclk : o.clkErr with
      | some e =>
        exfalso
        simp [pwm_imx27_apply, hp, hclk] at hret
      | none =>
        simp only [pwm_imx27_apply, hp, hclk, Bool.false_eq_true, if_false, ite_false,
          reduceIte]
        exact applyCommit_writes_getLast _ _ _ _ _ _ _ _ _

theorem claim_C9_witness :
    (pwm_imx27_apply ⟨1000⟩
      { clkrate := 66000000, clkErr := none, fifo_sr1 := 0, fifo_sr2 := 0,
        resetCr := fun _ => 0, pr := 4998, cr := 1, sr := 0, cnr := 150 }
      ⟨75758, 45454, Polarity.normal, true⟩
      ⟨75758, 3031, Polarity.normal, true⟩).writes.getLast? =
      some (Reg.PWMCR, mkPWMCR (prescaleOf 66000000 75758) Polarity.normal true) :=
  claim_C9.2 _ _ _ _ (by decide)

/-! ## Round-trip analysis (claim C3) -/

theorem ceil_div_le (x clk T : Nat) (hclk : 0 < clk) (h : x ≤ clk * T) :
    (x + clk - 1) / clk ≤ T := by
  apply Nat.le_of_lt_succ
  rw [Nat.div_lt_iff_lt_mul hclk]
  have he : Nat.succ T * clk = clk * T + clk := by rw [Nat.succ_mul, Nat.mul_comm]
  rw [he]
  set M := clk * T with hM
  omega

theorem le_ceil_div_mul (x clk : Nat) (hclk : 0 < clk) :
    x ≤ (x + clk - 1) / clk * clk := by
  have h := Nat.div_add_mod (x + clk - 1) clk
  have h2 : (x + clk - 1) % clk < clk := Nat.mod_lt _ hclk
  obtain ⟨r, hr1, hr2⟩ : ∃ r, r < clk ∧ clk * ((x + clk - 1) / clk) + r = x + clk - 1 :=
    ⟨(x + clk - 1) % clk, h2, h⟩
  have he : (x + clk - 1) / clk * clk = clk * ((x + clk - 1) / clk) := by ring
  rw [he]
  set M := clk * ((x + clk - 1) / clk) with hM
  omega

theorem roundtrip_core (clk T s : Nat) (hs : 0 < s) :
    clk * T / NSEC_PER_SEC / s * s * NSEC_PER_SEC ≤ clk * T ∧
    clk * T < clk * T / NSEC_PER_SEC / s * s * NSEC_PER_SEC + s * NSEC_PER_SEC := by
  unfold NSEC_PER_SEC
  have hd1 : clk * T / 1000000000 / s * s ≤ clk * T / 1000000000 := Nat.div_mul_le_self _ _
  have hd2 : clk * T / 1000000000 * 1000000000 ≤ clk * T := Nat.div_mul_le_self _ _
  constructor
  · calc clk * T / 1000000000 / s * s * 1000000000
        ≤ clk * T / 1000000000 * 1000000000 := Nat.mul_le_mul_right _ hd1
      _ ≤ clk * T := hd2
  · have h1 := Nat.div_add_mod (clk * T / 1000000000) s
    have h1b : clk * T / 1000000000 % s < s := Nat.mod_lt _ hs
    obtain ⟨r, hr1, hr2⟩ :
        ∃ r, r < s ∧ s * (clk * T / 1000000000 / s) + r = clk * T / 1000000000 :=
      ⟨_, h1b, h1⟩
    have h2 := Nat.div_add_mod (clk * T) 1000000000
    have h2b : clk * T % 1000000000 < 1000000000 := Nat.mod_lt _ (by norm_num)
    obtain ⟨r2, hs1, hs2⟩ :
        ∃ r2, r2 < 1000000000 ∧ 1000000000 * (clk * T / 1000000000) + r2 = clk * T :=
      ⟨_, h2b, h2⟩
    have he : clk * T / 1000000000 / s * s * 1000000000 =
        s * (clk * T / 1000000000 / s) * 1000000000 := by ring
    rw [he]
    set B := s * (clk * T / 1000000000 / s) with hB
    set d := clk * T / 1000000000 with hd
    set A := clk * T with hA
    omega

theorem readbackNs_bound (s cycles : Nat) (hcy : cycles ≤ 65536) (hs : s ≤ 4096) :
    NSEC_PER_SEC * cycles * s ≤ 268435456000000000 := by
  calc NSEC_PER_SEC * cycles * s ≤ NSEC_PER_SEC * 65536 * s :=
        Nat.mul_le_mul_right _ (Nat.mul_le_mul_left _ hcy)
    _ ≤ NSEC_PER_SEC * 65536 * 4096 := Nat.mul_le_mul_left _ hs
    _ = 268435456000000000 := by norm_num [NSEC_PER_SEC]

theorem readbackNs_le (clk s cycles T : Nat) (hclk : 0 < clk) (hclk32 : clk < 2 ^ 32)
    (hcy : cycles ≤ 65536) (hs : s ≤ 4096)
    (h : NSEC_PER_SEC * cycles * s ≤ clk * T) :
    readbackNs clk s cycles ≤ T := by
  have h1 := readbackNs_bound s cycles hcy hs
  unfold readbackNs DIV_ROUND_UP_ULL
  have hb : NSEC_PER_SEC * cycles * s < 2 ^ 64 := by
    set X := NSEC_PER_SEC * cycles * s with hX
    omega
  have hb2 : NSEC_PER_SEC * cycles * s + clk - 1 < 2 ^ 64 := by
    set X := NSEC_PER_SEC * cycles * s with hX
    omega
  rw [Nat.mod_eq_of_lt hb, Nat.mod_eq_of_lt hb2]
  exact ceil_div_le _ _ _ hclk h

theorem readbackNs_mul_ge (clk s cycles : Nat) (hclk : 0 < clk) (hclk32 : clk < 2 ^ 32)
    (hcy : cycles ≤ 65536) (hs : s ≤ 4096) :
    NSEC_PER_SEC * cycles * s ≤ readbackNs clk s cycles * clk := by
  have h1 := readbackNs_bound s cycles hcy hs
  unfold readbackNs DIV_ROUND_UP_ULL
  have hb : NSEC_PER_SEC * cycles * s < 2 ^ 64 := by
    set X := NSEC_PER_SEC * cycles * s with hX
    omega
  have hb2 : NSEC_PER_SEC * cycles * s + clk - 1 < 2 ^ 64 := by
    set X := NSEC_PER_SEC * cycles * s with hX
    omega
  rw [Nat.mod_eq_of_lt hb, Nat.mod_eq_of_lt hb2]
  exact le_ceil_div_mul _ _ hclk

theorem PRESCALER_GET_mkPWMCR (p : Nat) (pol : Polarity) (en : Bool)
    (hp1 : 1 ≤ p) (hp2 : p ≤ 4096) :
    MX3_PWMCR_PRESCALER_GET (mkPWMCR p pol en) = p := by
  have hnf := mkPWMCR_eq p pol en
  unfold MX3_PWMCR_PRESCALER_GET FIELD_GET MX3_PWMCR_PRESCALER_LO
  rw [hnf]
  cases pol <;> cases en <;>
    simp only [reduceCtorEq, reduceIte, ite_true, ite_false] <;>
    omega

theorem mkPWMCR_EN_true (p : Nat) (pol : Polarity) :
    (mkPWMCR p pol true &&& MX3_PWMCR_EN != 0) = true := by
  have hnf := mkPWMCR_eq p pol true
  have h1 : (p - 1) % 4096 < 4096 := Nat.mod_lt _ (by norm_num)
  simp only [MX3_PWMCR_EN, Nat.and_one_is_mod, bne_iff_ne, ne_eq, hnf]
  cases pol <;> simp only [reduceCtorEq, reduceIte, ite_true, ite_false] <;> omega


/-- C3 (amended): whenever the clock rate is positive and fits 32 bits,
`clock_hz * period_ns` does not overflow 64 bits, `duty_ns <= period_ns`, the
prescaler is in range (raw period cycles below 2^28) and the programmed period
register is not clamped (pre-adjustment period count above 2), the round trip
apply-conversion / get_state-readback satisfies: both read-back values never
exceed the originals and lie strictly within one rounding unit (one prescaled
clock tick, `prescaler / clock_hz` seconds) below them, and each read-back
value is at least the exact duration actually programmed in hardware
(ceiling rounding never underestimates).  All inequalities are stated
multiplied by `clock_hz` to stay in integers. -/
theorem claim_C3 (clkrate P D : Nat) (pol : Polarity)
    (hclk : 0 < clkrate) (hclk32 : clkrate < 2 ^ 32)
    (hov : clkrate * P < 2 ^ 64) (hD : D ≤ P)
    (hraw : rawCycles clkrate P < 2 ^ 28)
    (hpre : 2 < periodCyclesPre clkrate P) :
    ∃ st, pwm_imx27_get_state ⟨dutyCyclesOf clkrate P D⟩
        { clkErr := none, clkrate := clkrate,
          cr := mkPWMCR (prescaleOf clkrate P) pol true,
          pr := periodCyclesOf clkrate P,
          sar := dutyCyclesOf clkrate P D } = .ok st ∧
      st.enabled = true ∧
      st.period ≤ P ∧
      P * clkrate < st.period * clkrate + prescaleOf clkrate P * NSEC_PER_SEC ∧
      (periodCyclesOf clkrate P + 2) * prescaleOf clkrate P * NSEC_PER_SEC ≤
        st.period * clkrate ∧
      st.duty_cycle ≤ D ∧
      D * clkrate < st.duty_cycle * clkrate + prescaleOf clkrate P * NSEC_PER_SEC ∧
      dutyCyclesOf clkrate P D * prescaleOf clkrate P * NSEC_PER_SEC ≤
        st.duty_cycle * clkrate := by
  have hspos : 0 < prescaleOf clkrate P := prescaleOf_pos _ _
  have hs4096 : prescaleOf clkrate P ≤ 4096 := by
    unfold prescaleOf
    have h : rawCycles clkrate P / 65536 < 4096 := by
      rw [Nat.div_lt_iff_lt_mul (by norm_num)]
      omega
    omega
  have hpre65536 := periodCyclesPre_lt clkrate P
  have hdcle : dutyCyclesOf clkrate P D ≤ periodCyclesPre clkrate P :=
    dutyCyclesOf_le _ _ _ hD hov
  have hovD : clkrate * D < 2 ^ 64 := lt_of_le_of_lt (Nat.mul_le_mul_left _ hD) hov
  have hrawP : rawCycles clkrate P = clkrate * P / NSEC_PER_SEC := by
    unfold rawCycles; rw [Nat.mod_eq_of_lt hov]
  have hrawD : rawCycles clkrate D = clkrate * D / NSEC_PER_SEC := by
    unfold rawCycles; rw [Nat.mod_eq_of_lt hovD]
  have hpc2 : periodCyclesOf clkrate P + 2 = periodCyclesPre clkrate P := by
    unfold periodCyclesOf; rw [if_pos hpre]; omega
  have coreP := roundtrip_core clkrate P (prescaleOf clkrate P) hspos
  have coreD := roundtrip_core clkrate D (prescaleOf clkrate P) hspos
  have hprei : periodCyclesPre clkrate P =
      clkrate * P / NSEC_PER_SEC / prescaleOf clkrate P := by
    unfold periodCyclesPre; rw [hrawP]
  have hdci : dutyCyclesOf clkrate P D =
      clkrate * D / NSEC_PER_SEC / prescaleOf clkrate P := by
    unfold dutyCyclesOf; rw [hrawD]
  rw [← hprei] at coreP
  rw [← hdci] at coreD
  have hen := mkPWMCR_EN_true (prescaleOf clkrate P) pol
  have hpg := PRESCALER_GET_mkPWMCR (prescaleOf clkrate P) pol true hspos hs4096
  have hnoclamp : ¬ (periodCyclesOf clkrate P ≥ MX3_PWMPR_MAX) := by
    unfold MX3_PWMPR_MAX; omega
  have hge := readbackNs_mul_ge clkrate (prescaleOf clkrate P) (periodCyclesPre clkrate P)
    hclk hclk32 (by omega) hs4096
  have hgeD := readbackNs_mul_ge clkrate (prescaleOf clkrate P) (dutyCyclesOf clkrate P D)
    hclk hclk32 (by omega) hs4096
  simp only [pwm_imx27_get_state, hen, hpg, if_neg hnoclamp, Nat.mod_eq_of_lt hclk32,
    if_true, ite_true, reduceIte]
  refine ⟨_, rfl, rfl, ?_, ?_, ?_, ?_, ?_, ?_⟩
  · rw [hpc2]
    refine readbackNs_le clkrate (prescaleOf clkrate P) (periodCyclesPre clkrate P) P
      hclk hclk32 (by omega) hs4096 ?_
    calc NSEC_PER_SEC * periodCyclesPre clkrate P * prescaleOf clkrate P
        = periodCyclesPre clkrate P * prescaleOf clkrate P * NSEC_PER_SEC := by ring
      _ ≤ clkrate * P := coreP.1
  · rw [hpc2]
    calc P * clkrate = clkrate * P := Nat.mul_comm _ _
      _ < periodCyclesPre clkrate P * prescaleOf clkrate P * NSEC_PER_SEC +
          prescaleOf clkrate P * NSEC_PER_SEC := coreP.2
      _ ≤ readbackNs clkrate (prescaleOf clkrate P) (periodCyclesPre clkrate P) * clkrate +
          prescaleOf clkrate P * NSEC_PER_SEC := by
          refine Nat.add_le_add_right ?_ _
          calc periodCyclesPre clkrate P * prescaleOf clkrate P * NSEC_PER_SEC
              = NSEC_PER_SEC * periodCyclesPre clkrate P * prescaleOf clkrate P := by ring
            _ ≤ _ := hge
  · rw [hpc2]
    calc periodCyclesPre clkrate P * prescaleOf clkrate P * NSEC_PER_SEC
        = NSEC_PER_SEC * periodCyclesPre clkrate P * prescaleOf clkrate P := by ring
      _ ≤ _ := hge
  · refine readbackNs_le clkrate (prescaleOf clkrate P) (dutyCyclesOf clkrate P D) D
      hclk hclk32 (by omega) hs4096 ?_
    calc NSEC_PER_SEC * dutyCyclesOf clkrate P D * prescaleOf clkrate P
        = dutyCyclesOf clkrate P D * prescaleOf clkrate P * NSEC_PER_SEC := by ring
      _ ≤ clkrate * D := coreD.1
  · calc D * clkrate = clkrate * D := Nat.mul_comm _ _
      _ < dutyCyclesOf clkrate P D * prescaleOf clkrate P * NSEC_PER_SEC +
          prescaleOf clkrate P * NSEC_PER_SEC := coreD.2
      _ ≤ readbackNs clkrate (prescaleOf clkrate P) (dutyCyclesOf clkrate P D) * clkrate +
          prescaleOf clkrate P * NSEC_PER_SEC := by
          refine Nat.add_le_add_right ?_ _
          calc dutyCyclesOf clkrate P D * prescaleOf clkrate P * NSEC_PER_SEC
              = NSEC_PER_SEC * dutyCyclesOf clkrate P D * prescaleOf clkrate P := by ring
            _ ≤ _ := hgeD
  · calc dutyCyclesOf clkrate P D * prescaleOf clkrate P * NSEC_PER_SEC
        = NSEC_PER_SEC * dutyCyclesOf clkrate P D * prescaleOf clkrate P := by ring
      _ ≤ _ := hgeD

/-- C3, counterexample to the unrestricted claim: at 1 GHz with
period_ns = 0 the converter clamps the period register to 0, and get_state
reads back `(0 + 2) * 1 / 1 GHz = 2 ns` - two rounding units (the unit is
1 ns here) above the original 0 ns, so the round trip is not within one
rounding unit for every input. -/
theorem claim_C3_cex :
    prescaleOf 1000000000 0 = 1 ∧
    periodCyclesOf 1000000000 0 = 0 ∧
    (pwm_imx27_get_state ⟨dutyCyclesOf 1000000000 0 0⟩
      { clkErr := none, clkrate := 1000000000,
        cr := mkPWMCR (prescaleOf 1000000000 0) Polarity.normal true,
        pr := periodCyclesOf 1000000000 0,
        sar := dutyCyclesOf 1000000000 0 0 }).toOption =
      some { enabled := true, polarity := some Polarity.normal, polarityWarn := false,
             period := 2, duty_cycle := 0 } ∧
    ¬ 2 * 1000000000 ≤ 0 * 1000000000 + prescaleOf 1000000000 0 * NSEC_PER_SEC := by
  decide

/-- C3 witness: the amended theorem instantiated at the 66 MHz scenario. -/
theorem claim_C3_witness :
    ∃ st, pwm_imx27_get_state ⟨dutyCyclesOf 66000000 75758 3031⟩
        { clkErr := none, clkrate := 66000000,
          cr := mkPWMCR (prescaleOf 66000000 75758) Polarity.normal true,
          pr := periodCyclesOf 66000000 75758,
          sar := dutyCyclesOf 66000000 75758 3031 } = .ok st ∧
      st.enabled = true ∧
      st.period ≤ 75758 ∧
      75758 * 66000000 < st.period * 66000000 + prescaleOf 66000000 75758 * NSEC_PER_SEC ∧
      (periodCyclesOf 66000000 75758 + 2) * prescaleOf 66000000 75758 * NSEC_PER_SEC ≤
        st.period * 66000000 ∧
      st.duty_cycle ≤ 3031 ∧
      3031 * 66000000 < st.duty_cycle * 66000000 + prescaleOf 66000000 75758 * NSEC_PER_SEC ∧
      dutyCyclesOf 66000000 75758 3031 * prescaleOf 66000000 75758 * NSEC_PER_SEC ≤
        st.duty_cycle * 66000000 :=
  claim_C3 66000000 75758 3031 Polarity.normal (by norm_num) (by norm_num) (by norm_num)
    (by norm_num) (by decide) (by decide)

end PwmImx27
